import Mathlib

/-!
A shallow embedding of the key-point analyzer of `src/utils/data_processor.py`
(`find_balance_point`, `process_force_data`).  `src/app.py` builds the frame
with `pd.read_csv` (hence a `RangeIndex` `0..N-1`) and renames the two selected
columns to `time` and `force`, so row labels coincide with positions and all
columns share one length.  Times and forces are embedded as exact rationals.
-/

/-- A row of the force DataFrame: one `(time, force)` sample. -/
structure Sample where
  time : ℚ
  force : ℚ
  deriving DecidableEq, Repr

instance : Inhabited Sample := ⟨⟨0, 0⟩⟩

/-- A pandas DataFrame as `process_force_data` sees it: its column names
(`df.columns`) together with its rows restricted to the canonical
`time`/`force` columns.  In pandas every column shares the one row index, so
the two data columns necessarily have equal length, which the single `rows`
list enforces. -/
structure DataFrame where
  columns : List String
  rows : List Sample
  deriving DecidableEq, Repr

/-- The test `window_data.std() < std_threshold` from lines 44 and 47 of
`data_processor.py`.  `pandas.Series.std()` uses the sample (ddof = 1) formula
`sqrt (ssd / (n - 1))` with `ssd = Σ (x - mean)^2`; for `n < 2` it yields
`NaN`, and `NaN < t` is `False` in Python.  The standard deviation is
non-negative, so for `n ≥ 2` the comparison `std < t` holds iff
`0 < t ∧ ssd < t^2 * (n - 1)`, which is exact rational arithmetic; the
equivalence with the square-root form is proved in `sampleStdLt_iff_sqrt_lt`
below. -/
def sampleStdLt (xs : List ℚ) (t : ℚ) : Bool :=
  if xs.length < 2 then false
  else
    decide (0 < t) &&
      decide ((xs.map (fun x => (x - xs.sum / (xs.length : ℚ)) ^ 2)).sum <
        t ^ 2 * ((xs.length : ℚ) - 1))

/-- The window read `df.loc[lo : hi, 'force']` of line 42: label slicing on a
`RangeIndex` is positional, inclusive at both ends, and clipped to the
existing labels. -/
def windowForces (df : List Sample) (lo hi : Nat) : List ℚ :=
  ((df.drop lo).take (hi + 1 - lo)).map (fun s => s.force)

/-- Embedding of `find_balance_point(df, max_force_idx, window_size,
std_threshold)` (lines 23-58).  The loop runs
`for i in range(window_size, len(df_after_max) - window_size)` over the
sub-frame `df_after_max = df.iloc[max_force_idx:]`, whose row label at offset
`i` is `max_force_idx + i`; the first `i` whose window standard deviation is
below the threshold yields the row at that label, otherwise the last row of
the whole frame (`df.index[-1]`) is returned.  In `process_force_data` the
defaults `window_size = 30`, `std_threshold = 1` are used. -/
def find_balance_point (df : List Sample) (max_force_idx window_size : Nat)
    (std_threshold : ℚ) : Sample :=
  let lenAfter := df.length - max_force_idx
  let cands := List.range' window_size ((lenAfter - window_size) - window_size)
  match cands.find? (fun i =>
      sampleStdLt
        (windowForces df ((max_force_idx + i) - window_size)
          ((max_force_idx + i) + window_size)) std_threshold) with
  | some i => df.getD (max_force_idx + i) ⟨0, 0⟩
  | none => df.getD (df.length - 1) ⟨0, 0⟩

/-- Embedding of `pandas.Series.idxmin()` (line 77): the row label (= position, on a
`RangeIndex`) of the first occurrence of the minimum value.  Pandas raises on
an empty column; the embedding is total and the theorems assume a non-empty
series. -/
def idxmin : List ℚ → Nat
  | [] => 0
  | [_] => 0
  | x :: y :: xs =>
    if x ≤ (y :: xs).getD (idxmin (y :: xs)) 0 then 0 else idxmin (y :: xs) + 1

/-- Embedding of `pandas.Series.idxmax()` (line 83): the row label of the first occurrence
of the maximum value. -/
def idxmax : List ℚ → Nat
  | [] => 0
  | [_] => 0
  | x :: y :: xs =>
    if (y :: xs).getD (idxmax (y :: xs)) 0 ≤ x then 0 else idxmax (y :: xs) + 1

/-- The `st.warning` calls of lines 71 and 73, one per missing canonical
column; only the identity of the column named by each warning matters to the
contract, so the Chinese message text is abstracted to the named role. -/
inductive Warning where
  | missingTime
  | missingForce
  deriving DecidableEq, Repr

/-- The `points` dictionary built on lines 98-106: the three key points plus
the two derived statistics. -/
structure Points where
  A : Sample
  B : Sample
  C : Sample
  RFD : ℚ
  recovery_time : ℚ
  deriving DecidableEq, Repr

/-- The set `required_columns` of line 63, as a list. -/
def requiredColumns : List String := ["time", "force"]

/-- Lines 77-106 of `process_force_data`: the computation performed once the
column check has passed. -/
def computePoints (rows : List Sample) : Points :=
  let min_force_idx := idxmin (rows.map (fun s => s.force))
  let point_a := rows.getD min_force_idx ⟨0, 0⟩
  let max_force_idx := idxmax (rows.map (fun s => s.force))
  let point_b := rows.getD max_force_idx ⟨0, 0⟩
  let point_c := find_balance_point rows max_force_idx 30 1
  let delta_force := point_b.force - point_a.force
  let delta_time := point_b.time - point_a.time
  let rfd := if delta_time ≠ 0 then delta_force / delta_time else 0
  let recovery_time := point_c.time - point_b.time
  { A := point_a, B := point_b, C := point_c, RFD := rfd,
    recovery_time := recovery_time }

/-- The warning loop of lines 67-73: `missing_columns = required - current`,
and for each element one `st.warning` naming it.  Python iterates the set in
an unspecified order; each missing column produces exactly one warning, and
only membership in the emitted list is relied upon. -/
def missingWarnings (df : DataFrame) : List Warning :=
  (requiredColumns.filter (fun c => !(df.columns.contains c))).foldr
    (fun col acc =>
      (if col = "time" then [Warning.missingTime] else []) ++
        (if col = "force" then [Warning.missingForce] else []) ++ acc) []

/-- Embedding of `process_force_data(df)` (lines 60-108).  The Python function
returns `(df, None)` after warning when a canonical column is missing and
`(df, points)` otherwise; the input frame is returned unchanged, so it is
dropped here, and the emitted warnings are made an explicit result
component. -/
def process_force_data (df : DataFrame) : List Warning × Option Points :=
  if !(requiredColumns.all (fun c => df.columns.contains c)) then
    (missingWarnings df, none)
  else
    ([], some (computePoints df.rows))

/-- A `find?` over `List.range' s n` returns the least element of the range
satisfying the predicate. -/
lemma find?_range'_eq_some {p : Nat → Bool} {i : Nat} :
    ∀ s n, s ≤ i → i < s + n → p i = true →
      (∀ j, s ≤ j → j < i → p j = false) →
      (List.range' s n).find? p = some i := by
  intro s n
  induction n generalizing s with
  | zero => intro h1 h2 _ _; omega
  | succ n ih =>
    intro h1 h2 hp hmin
    rw [List.range'_succ]
    by_cases hs : p s = true
    · have hi : i = s := by
        by_contra hne
        have hlt : s < i := by omega
        have := hmin s (le_refl s) hlt
        rw [hs] at this
        exact Bool.true_eq_false.mp this
      subst hi
      exact List.find?_cons_of_pos _ hs
    · have hne : s ≠ i := fun h => hs (h ▸ hp)
      rw [List.find?_cons_of_neg _ hs]
      exact ih (s + 1) (by omega) (by omega) hp
        (fun j hj1 hj2 => hmin j (by omega) hj2)

/-- If the standard-deviation test fails at every candidate, the scan of
`find_balance_point` finds nothing and the function returns the last row. -/
lemma find_balance_point_fallback (df : List Sample) (m w : Nat) (t : ℚ)
    (h : ∀ j, w ≤ j → j + w < df.length - m →
      sampleStdLt (windowForces df ((m + j) - w) ((m + j) + w)) t = false) :
    find_balance_point df m w t = df.getD (df.length - 1) ⟨0, 0⟩ := by
  have hnone : (List.range' w (((df.length - m) - w) - w)).find?
      (fun i => sampleStdLt
        (windowForces df ((m + i) - w) ((m + i) + w)) t) = none := by
    rw [List.find?_eq_none]
    intro x hx
    rw [List.mem_range'] at hx
    obtain ⟨k, hk, rfl⟩ := hx
    simp only [one_mul] at hk ⊢
    simp [h (w + k) (by omega) (by omega)]
  unfold find_balance_point
  simp only [hnone]

/-- If the standard-deviation test first succeeds at candidate offset `i`,
`find_balance_point` returns the row at label `max_force_idx + i`. -/
lemma find_balance_point_found (df : List Sample) (m w : Nat) (t : ℚ) (i : Nat)
    (h1 : w ≤ i) (h2 : i + w < df.length - m)
    (hp : sampleStdLt (windowForces df ((m + i) - w) ((m + i) + w)) t = true)
    (hmin : ∀ j, w ≤ j → j < i →
      sampleStdLt (windowForces df ((m + j) - w) ((m + j) + w)) t = false) :
    find_balance_point df m w t = df.getD (m + i) ⟨0, 0⟩ := by
  have hsome : (List.range' w (((df.length - m) - w) - w)).find?
      (fun i => sampleStdLt
        (windowForces df ((m + i) - w) ((m + i) + w)) t) = some i :=
    find?_range'_eq_some w _ h1 (by omega) hp (fun j hj1 hj2 => hmin j hj1 hj2)
  unfold find_balance_point
  simp only [hsome]

/-- The index returned by `idxmin` is in bounds for a non-empty list. -/
lemma idxmin_lt_length (xs : List ℚ) (h : xs ≠ []) : idxmin xs < xs.length := by
  induction xs with
  | nil => simp at h
  | cons x t ih =>
    cases t with
    | nil => simp [idxmin]
    | cons y ys =>
      have ht := ih (by simp)
      rw [idxmin]
      split
      · simp
      · simpa [Nat.succ_lt_succ_iff] using ht

/-- The value at `idxmin` is a lower bound of the list. -/
lemma idxmin_getD_le (xs : List ℚ) :
    ∀ j, j < xs.length → xs.getD (idxmin xs) 0 ≤ xs.getD j 0 := by
  induction xs with
  | nil => intro j hj; simp at hj
  | cons x t ih =>
    cases t with
    | nil =>
      intro j hj
      have hj0 : j = 0 := by simp at hj; omega
      subst hj0
      simp [idxmin]
    | cons y ys =>
      intro j hj
      rw [idxmin]
      split
      · rename_i hle
        cases j with
        | zero => simp
        | succ k =>
          rw [List.getD_cons_zero, List.getD_cons_succ]
          exact le_trans hle (ih k (by simpa using hj))
      · rename_i hlt
        push_neg at hlt
        cases j with
        | zero =>
          rw [List.getD_cons_succ, List.getD_cons_zero]
          exact le_of_lt hlt
        | succ k =>
          rw [List.getD_cons_succ, List.getD_cons_succ]
          exact ih k (by simpa using hj)

/-- Every index strictly before `idxmin` carries a strictly larger value:
`idxmin` is the first occurrence of the minimum. -/
lemma idxmin_getD_first (xs : List ℚ) :
    ∀ j, j < idxmin xs → xs.getD (idxmin xs) 0 < xs.getD j 0 := by
  induction xs with
  | nil => intro j hj; simp [idxmin] at hj
  | cons x t ih =>
    cases t with
    | nil => intro j hj; simp [idxmin] at hj
    | cons y ys =>
      intro j hj
      rw [idxmin] at hj ⊢
      split
      · rename_i hle
        rw [if_pos hle] at hj
        omega
      · rename_i hlt
        rw [if_neg hlt] at hj
        push_neg at hlt
        cases j with
        | zero =>
          rw [List.getD_cons_succ, List.getD_cons_zero]
          exact hlt
        | succ k =>
          rw [List.getD_cons_succ, List.getD_cons_succ]
          exact ih k (by omega)

/-- The index returned by `idxmax` is in bounds for a non-empty list. -/
lemma idxmax_lt_length (xs : List ℚ) (h : xs ≠ []) : idxmax xs < xs.length := by
  induction xs with
  | nil => simp at h
  | cons x t ih =>
    cases t with
    | nil => simp [idxmax]
    | cons y ys =>
      have ht := ih (by simp)
      rw [idxmax]
      split
      · simp
      · simpa [Nat.succ_lt_succ_iff] using ht

/-- The value at `idxmax` is an upper bound of the list. -/
lemma idxmax_getD_le (xs : List ℚ) :
    ∀ j, j < xs.length → xs.getD j 0 ≤ xs.getD (idxmax xs) 0 := by
  induction xs with
  | nil => intro j hj; simp at hj
  | cons x t ih =>
    cases t with
    | nil =>
      intro j hj
      have hj0 : j = 0 := by simp at hj; omega
      subst hj0
      simp [idxmax]
    | cons y ys =>
      intro j hj
      rw [idxmax]
      split
      · rename_i hle
        cases j with
        | zero => simp
        | succ k =>
          rw [List.getD_cons_zero, List.getD_cons_succ]
          exact le_trans (ih k (by simpa using hj)) hle
      · rename_i hlt
        push_neg at hlt
        cases j with
        | zero =>
          rw [List.getD_cons_succ, List.getD_cons_zero]
          exact le_of_lt hlt
        | succ k =>
          rw [List.getD_cons_succ, List.getD_cons_succ]
          exact ih k (by simpa using hj)

/-- Every index strictly before `idxmax` carries a strictly smaller value:
`idxmax` is the first occurrence of the maximum. -/
lemma idxmax_getD_first (xs : List ℚ) :
    ∀ j, j < idxmax xs → xs.getD j 0 < xs.getD (idxmax xs) 0 := by
  induction xs with
  | nil => intro j hj; simp [idxmax] at hj
  | cons x t ih =>
    cases t with
    | nil => intro j hj; simp [idxmax] at hj
    | cons y ys =>
      intro j hj
      rw [idxmax] at hj ⊢
      split
      · rename_i hle
        rw [if_pos hle] at hj
        omega
      · rename_i hlt
        rw [if_neg hlt] at hj
        push_neg at hlt
        cases j with
        | zero =>
          rw [List.getD_cons_succ, List.getD_cons_zero]
          exact hlt
        | succ k =>
          rw [List.getD_cons_succ, List.getD_cons_succ]
          exact ih k (by omega)

/-- The rational test `sampleStdLt` coincides with the literal comparison
`std < t` of line 47, where `std` is the real sample standard deviation
`sqrt (Σ (x - mean)^2 / (n - 1))` computed by `pandas.Series.std()` with its
default `ddof = 1`. -/
lemma sampleStdLt_iff_sqrt_lt (xs : List ℚ) (t : ℚ) (h2 : 2 ≤ xs.length) :
    sampleStdLt xs t = true ↔
      Real.sqrt ((xs.map
          (fun x : ℚ => ((x : ℝ) - (xs.sum : ℝ) / (xs.length : ℝ)) ^ 2)).sum /
        ((xs.length : ℝ) - 1)) < (t : ℝ) := by
  have hgen : ∀ (l : List ℚ) (c : ℚ),
      (((l.map (fun x => (x - c) ^ 2)).sum : ℚ) : ℝ)
        = (l.map (fun x : ℚ => ((x : ℝ) - (c : ℝ)) ^ 2)).sum := by
    intro l c
    induction l with
    | nil => simp
    | cons a l ih =>
      simp only [List.map_cons, List.sum_cons, Rat.cast_add, ih]
      push_cast
      ring
  have hcast : (((xs.map (fun x => (x - xs.sum / (xs.length : ℚ)) ^ 2)).sum : ℚ) : ℝ)
      = (xs.map (fun x : ℚ => ((x : ℝ) - (xs.sum : ℝ) / (xs.length : ℝ)) ^ 2)).sum := by
    rw [hgen xs (xs.sum / (xs.length : ℚ))]
    simp only [Rat.cast_div, Rat.cast_natCast]
  have hn1 : (0 : ℝ) < (xs.length : ℝ) - 1 := by
    have h2R : (2 : ℝ) ≤ (xs.length : ℝ) := by exact_mod_cast h2
    linarith
  unfold sampleStdLt
  rw [if_neg (by omega)]
  simp only [Bool.and_eq_true, decide_eq_true_eq]
  constructor
  · rintro ⟨ht0, hlt⟩
    have ht0R : (0 : ℝ) < (t : ℝ) := by exact_mod_cast ht0
    rw [Real.sqrt_lt' ht0R, div_lt_iff₀ hn1, ← hcast]
    exact_mod_cast hlt
  · intro hR
    have ht0R : (0 : ℝ) < (t : ℝ) :=
      lt_of_le_of_lt (Real.sqrt_nonneg _) hR
    have ht0 : 0 < t := by exact_mod_cast ht0R
    refine ⟨ht0, ?_⟩
    rw [Real.sqrt_lt' ht0R, div_lt_iff₀ hn1, ← hcast] at hR
    exact_mod_cast hR

/-- Projection of `computePoints`: point A is the row at the first index of
the minimal force. -/
lemma computePoints_A (rows : List Sample) :
    (computePoints rows).A
      = rows.getD (idxmin (rows.map (fun s => s.force))) ⟨0, 0⟩ := rfl

/-- Projection of `computePoints`: point B is the row at the first index of
the maximal force. -/
lemma computePoints_B (rows : List Sample) :
    (computePoints rows).B
      = rows.getD (idxmax (rows.map (fun s => s.force))) ⟨0, 0⟩ := rfl

/-- Projection of `computePoints`: point C comes from `find_balance_point`
with the default parameters. -/
lemma computePoints_C (rows : List Sample) :
    (computePoints rows).C
      = find_balance_point rows (idxmax (rows.map (fun s => s.force))) 30 1 := rfl

/-- Projection of `computePoints`: the RFD formula of lines 92-94. -/
lemma computePoints_RFD (rows : List Sample) :
    (computePoints rows).RFD
      = if (computePoints rows).B.time - (computePoints rows).A.time ≠ 0 then
          ((computePoints rows).B.force - (computePoints rows).A.force) /
            ((computePoints rows).B.time - (computePoints rows).A.time)
        else 0 := rfl

/-- Projection of `computePoints`: the recovery-time formula of line 96. -/
lemma computePoints_recovery (rows : List Sample) :
    (computePoints rows).recovery_time
      = (computePoints rows).C.time - (computePoints rows).B.time := rfl

/-- When both canonical columns are present, `process_force_data` warns about
nothing and returns the computed points. -/
lemma process_force_data_ok (df : DataFrame)
    (ht : df.columns.contains "time" = true)
    (hf : df.columns.contains "force" = true) :
    process_force_data df = ([], some (computePoints df.rows)) := by
  have ht' : "time" ∈ df.columns := by simpa using ht
  have hf' : "force" ∈ df.columns := by simpa using hf
  unfold process_force_data
  simp [requiredColumns, ht', hf']

/-- Reading the force of a row through the mapped force column. -/
lemma getD_force (rows : List Sample) (j : Nat) (hj : j < rows.length) :
    (rows.getD j ⟨0, 0⟩).force = (rows.map (fun s => s.force)).getD j 0 := by
  rw [List.getD_eq_getElem _ _ hj, List.getD_eq_getElem _ _ (by simpa using hj),
    List.getElem_map]

/-- Whatever the scan decides, `find_balance_point` returns a row of the
series whose index is at least `max_force_idx`. -/
lemma find_balance_point_index (df : List Sample) (m w : Nat) (t : ℚ)
    (hm : m < df.length) :
    ∃ ic, m ≤ ic ∧ ic < df.length ∧
      find_balance_point df m w t = df.getD ic ⟨0, 0⟩ := by
  cases hfind : (List.range' w (((df.length - m) - w) - w)).find?
      (fun i => sampleStdLt
        (windowForces df ((m + i) - w) ((m + i) + w)) t) with
  | none =>
    refine ⟨df.length - 1, by omega, by omega, ?_⟩
    unfold find_balance_point
    simp only [hfind]
  | some i =>
    have hmem := List.mem_of_find?_eq_some hfind
    rw [List.mem_range'] at hmem
    obtain ⟨k, hk, hik⟩ := hmem
    refine ⟨m + i, by omega, by omega, ?_⟩
    unfold find_balance_point
    simp only [hfind]

/-- C1: if, among the candidate indices `c` of the post-B scan (those with a
full symmetric window, `max_force_idx + window_size ≤ c` and
`c + window_size < df.length`), `c` is the first whose windowed sample
standard deviation is strictly below the threshold, then `find_balance_point`
returns exactly the sample at index `c`.  `sampleStdLt` is the code's
comparison `window_data.std() < std_threshold` with the sample (N-1
denominator) formula, see `sampleStdLt_iff_sqrt_lt`. -/
theorem C1_first_stable_candidate (df : List Sample) (m w : Nat) (t : ℚ)
    (c : Nat) (hlen : 2 * w < df.length - m)
    (hc1 : m + w ≤ c) (hc2 : c + w < df.length)
    (hstd : sampleStdLt (windowForces df (c - w) (c + w)) t = true)
    (hfirst : ∀ c', c' < c → m + w ≤ c' →
      sampleStdLt (windowForces df (c' - w) (c' + w)) t = false) :
    find_balance_point df m w t = df.getD c ⟨0, 0⟩ := by
  have hc : m + (c - m) = c := by omega
  have hres := find_balance_point_found df m w t (c - m) (by omega) (by omega)
    (by rw [hc]; exact hstd)
    (fun j hj1 hj2 => hfirst (m + j) (by omega) (by omega))
  rw [hres, hc]

/-- C3: when the post-B sub-series is too short to contain a candidate with a
full window (length at most `2 * window_size`), or every candidate fails the
threshold test, `find_balance_point` returns the last sample of the entire
series. -/
theorem C3_fallback_last_sample (df : List Sample) (m w : Nat) (t : ℚ)
    (hne : df ≠ []) (hm : m < df.length)
    (h : df.length - m ≤ 2 * w ∨
      ∀ c, m + w ≤ c → c + w < df.length →
        sampleStdLt (windowForces df (c - w) (c + w)) t = false) :
    find_balance_point df m w t = df.getD (df.length - 1) ⟨0, 0⟩ := by
  apply find_balance_point_fallback
  intro j hj1 hj2
  rcases h with h | h
  · omega
  · exact h (m + j) (by omega) (by omega)

/-- C9: every window examined by the balance-point scan lies entirely inside
`[max_force_idx, df.length - 1]` in original-index space: it never starts
before B's index, never reaches past the series end, and always has its full
`2 * window_size + 1` samples. -/
theorem C9_window_within_bounds (df : List Sample) (m w i : Nat)
    (h1 : w ≤ i) (h2 : i < ((df.length - m) - w) - w) :
    m ≤ (m + i) - w ∧ (m + i) + w < df.length ∧
      (windowForces df ((m + i) - w) ((m + i) + w)).length = 2 * w + 1 := by
  refine ⟨by omega, by omega, ?_⟩
  unfold windowForces
  rw [List.length_map, List.length_take, List.length_drop]
  omega

/-- C7 as stated is false: no window examined by the scan ever includes a
sample of index strictly below B's.  Equivalently, at every candidate offset
`i` the window read in absolute index space coincides with the window read
after re-basing to the post-B sub-series `df.iloc[max_force_idx:]`, so no
pre-peak sample can influence it. -/
theorem C7_counterexample :
    ¬ ∃ (df : List Sample) (m w i : Nat), w ≤ i ∧
      i < ((df.length - m) - w) - w ∧
      windowForces df ((m + i) - w) ((m + i) + w)
        ≠ windowForces (df.drop m) (i - w) (i + w) := by
  rintro ⟨df, m, w, i, h1, h2, hne⟩
  apply hne
  unfold windowForces
  rw [List.drop_drop]
  have he1 : m + (i - w) = (m + i) - w := by omega
  have he2 : (m + i) + w + 1 - ((m + i) - w) = (i + w) + 1 - (i - w) := by omega
  rw [he1, he2]

/-- C7, amended: the window examined at candidate offset `i` never extends
backward past B's index — its low end `max_force_idx + (i - window_size)` is
at least `max_force_idx`, and equals it exactly at the first candidate
`i = window_size`; consequently the window is fully determined by the post-B
sub-series, with which it coincides after re-basing. -/
theorem C7_amended_window_not_before_B (df : List Sample) (m w i : Nat)
    (h1 : w ≤ i) (h2 : i < ((df.length - m) - w) - w) :
    m ≤ (m + i) - w ∧ (i = w → (m + i) - w = m) ∧
      windowForces df ((m + i) - w) ((m + i) + w)
        = windowForces (df.drop m) (i - w) (i + w) := by
  refine ⟨by omega, by omega, ?_⟩
  unfold windowForces
  rw [List.drop_drop]
  have he1 : m + (i - w) = (m + i) - w := by omega
  have he2 : (m + i) + w + 1 - ((m + i) - w) = (i + w) + 1 - (i - w) := by omega
  rw [he1, he2]

/-- C2: on a non-empty series with both canonical columns,
`process_force_data` returns point A as the sample at the first index
attaining the minimum force and point B as the sample at the first index
attaining the maximum force; consequently `A.force ≤ s.force ≤ B.force` for
every sample `s`. -/
theorem C2_extrema_first_occurrence (df : DataFrame)
    (ht : df.columns.contains "time" = true)
    (hf : df.columns.contains "force" = true)
    (hne : df.rows ≠ []) :
    ∃ pts ia ib, process_force_data df = ([], some pts) ∧
      ia < df.rows.length ∧ ib < df.rows.length ∧
      pts.A = df.rows.getD ia ⟨0, 0⟩ ∧ pts.B = df.rows.getD ib ⟨0, 0⟩ ∧
      (∀ j, j < df.rows.length →
        pts.A.force ≤ (df.rows.getD j ⟨0, 0⟩).force ∧
          (df.rows.getD j ⟨0, 0⟩).force ≤ pts.B.force) ∧
      (∀ j, j < ia → pts.A.force < (df.rows.getD j ⟨0, 0⟩).force) ∧
      (∀ j, j < ib → (df.rows.getD j ⟨0, 0⟩).force < pts.B.force) := by
  have hfne : df.rows.map (fun s => s.force) ≠ [] := by simpa using hne
  have hlenf : (df.rows.map (fun s => s.force)).length = df.rows.length := by
    simp
  have hia : idxmin (df.rows.map (fun s => s.force)) < df.rows.length := by
    rw [← hlenf]; exact idxmin_lt_length _ hfne
  have hib : idxmax (df.rows.map (fun s => s.force)) < df.rows.length := by
    rw [← hlenf]; exact idxmax_lt_length _ hfne
  have hA : (computePoints df.rows).A.force
      = (df.rows.map (fun s => s.force)).getD
          (idxmin (df.rows.map (fun s => s.force))) 0 := by
    rw [computePoints_A, getD_force _ _ hia]
  have hB : (computePoints df.rows).B.force
      = (df.rows.map (fun s => s.force)).getD
          (idxmax (df.rows.map (fun s => s.force))) 0 := by
    rw [computePoints_B, getD_force _ _ hib]
  refine ⟨computePoints df.rows, idxmin (df.rows.map (fun s => s.force)),
    idxmax (df.rows.map (fun s => s.force)),
    process_force_data_ok df ht hf, hia, hib,
    computePoints_A df.rows, computePoints_B df.rows, ?_, ?_, ?_⟩
  · intro j hj
    rw [hA, hB, getD_force _ _ hj]
    exact ⟨idxmin_getD_le _ j (by omega), idxmax_getD_le _ j (by omega)⟩
  · intro j hj
    rw [hA, getD_force _ _ (by omega : j < df.rows.length)]
    exact idxmin_getD_first _ j hj
  · intro j hj
    rw [hB, getD_force _ _ (by omega : j < df.rows.length)]
    exact idxmax_getD_first _ j hj

/-- C4: when the `time` or `force` role is absent, `process_force_data`
computes no points at all (its points component is `none`) and the emitted
warnings name each missing role; being a total function, it returns rather
than raising. -/
theorem C4_missing_columns (df : DataFrame)
    (h : df.columns.contains "time" = false ∨
      df.columns.contains "force" = false) :
    (process_force_data df).2 = none ∧
      (df.columns.contains "time" = false →
        Warning.missingTime ∈ (process_force_data df).1) ∧
      (df.columns.contains "force" = false →
        Warning.missingForce ∈ (process_force_data df).1) := by
  have hall : (requiredColumns.all (fun c => df.columns.contains c)) = false := by
    have he : (requiredColumns.all (fun c => df.columns.contains c))
        = (df.columns.contains "time" && (df.columns.contains "force" && true)) :=
      rfl
    rw [he]
    rcases h with h | h <;> rw [h] <;> simp
  have hproc : process_force_data df = (missingWarnings df, none) := by
    unfold process_force_data
    rw [hall]
    simp
  rw [hproc]
  refine ⟨rfl, ?_, ?_⟩
  · intro ht2
    have ht2' : "time" ∉ df.columns := by simpa using ht2
    by_cases hf2 : "force" ∈ df.columns
    · simp [missingWarnings, requiredColumns, ht2', hf2]
    · simp [missingWarnings, requiredColumns, ht2', hf2]
  · intro hf2
    have hf2' : "force" ∉ df.columns := by simpa using hf2
    by_cases ht2 : "time" ∈ df.columns
    · simp [missingWarnings, requiredColumns, ht2, hf2']
    · simp [missingWarnings, requiredColumns, ht2, hf2']

/-- C5: on a non-empty series with both canonical columns, the returned RFD
is `(B.force - A.force) / (B.time - A.time)` whenever `B.time ≠ A.time`, and
`0` when `B.time = A.time`. -/
theorem C5_rfd (df : DataFrame)
    (ht : df.columns.contains "time" = true)
    (hf : df.columns.contains "force" = true)
    (hne : df.rows ≠ []) :
    ∃ pts, process_force_data df = ([], some pts) ∧
      (pts.B.time ≠ pts.A.time →
        pts.RFD = (pts.B.force - pts.A.force) / (pts.B.time - pts.A.time)) ∧
      (pts.B.time = pts.A.time → pts.RFD = 0) := by
  refine ⟨computePoints df.rows, process_force_data_ok df ht hf, ?_, ?_⟩
  · intro hne'
    rw [computePoints_RFD, if_pos (sub_ne_zero.mpr hne')]
  · intro heq
    rw [computePoints_RFD, if_neg]
    simp [heq]

/-- C6: point C is a sample at an index at least B's index (the fallback last
sample included), so whenever the time column is monotonically non-decreasing
the recovery time `C.time - B.time` is non-negative. -/
theorem C6_recovery_time_nonneg (df : DataFrame)
    (ht : df.columns.contains "time" = true)
    (hf : df.columns.contains "force" = true)
    (hne : df.rows ≠ []) :
    ∃ pts ib ic, process_force_data df = ([], some pts) ∧
      ib < df.rows.length ∧ ic < df.rows.length ∧ ib ≤ ic ∧
      pts.B = df.rows.getD ib ⟨0, 0⟩ ∧ pts.C = df.rows.getD ic ⟨0, 0⟩ ∧
      (List.Pairwise (fun a b => a.time ≤ b.time) df.rows →
        0 ≤ pts.recovery_time) := by
  have hfne : df.rows.map (fun s => s.force) ≠ [] := by simpa using hne
  have hib : idxmax (df.rows.map (fun s => s.force)) < df.rows.length := by
    have := idxmax_lt_length _ hfne
    simpa using this
  obtain ⟨ic, hmic, hic, hCeq⟩ :=
    find_balance_point_index df.rows (idxmax (df.rows.map (fun s => s.force)))
      30 1 hib
  refine ⟨computePoints df.rows, idxmax (df.rows.map (fun s => s.force)), ic,
    process_force_data_ok df ht hf, hib, hic, hmic,
    computePoints_B df.rows, by rw [computePoints_C, hCeq], ?_⟩
  intro hmono
  rw [computePoints_recovery, computePoints_C, hCeq, computePoints_B]
  rcases Nat.eq_or_lt_of_le hmic with he | hl
  · rw [he]
    simp
  · have hR := List.pairwise_iff_getElem.mp hmono
      (idxmax (df.rows.map (fun s => s.force))) ic hib hic hl
    rw [List.getD_eq_getElem _ _ hic, List.getD_eq_getElem _ _ hib]
    linarith

/-- C8: `process_force_data` is deterministic — it is a pure function of the
input frame, so identical inputs yield identical warnings, points and
statistics. -/
theorem C8_deterministic (df1 df2 : DataFrame) (h : df1 = df2) :
    process_force_data df1 = process_force_data df2 := by
  rw [h]

/-- C10: on a non-empty series with both canonical columns,
`process_force_data` returns (never raises, being total), and each of the key
points A, B and C is the `(time, force)` pair of an actual sample of the
series. -/
theorem C10_points_are_samples (df : DataFrame)
    (ht : df.columns.contains "time" = true)
    (hf : df.columns.contains "force" = true)
    (hne : df.rows ≠ []) :
    ∃ pts ia ib ic, process_force_data df = ([], some pts) ∧
      ia < df.rows.length ∧ ib < df.rows.length ∧ ic < df.rows.length ∧
      pts.A = df.rows.getD ia ⟨0, 0⟩ ∧ pts.B = df.rows.getD ib ⟨0, 0⟩ ∧
      pts.C = df.rows.getD ic ⟨0, 0⟩ := by
  have hfne : df.rows.map (fun s => s.force) ≠ [] := by simpa using hne
  have hia : idxmin (df.rows.map (fun s => s.force)) < df.rows.length := by
    have := idxmin_lt_length _ hfne
    simpa using this
  have hib : idxmax (df.rows.map (fun s => s.force)) < df.rows.length := by
    have := idxmax_lt_length _ hfne
    simpa using this
  obtain ⟨ic, _, hic, hCeq⟩ :=
    find_balance_point_index df.rows (idxmax (df.rows.map (fun s => s.force)))
      30 1 hib
  exact ⟨computePoints df.rows, idxmin (df.rows.map (fun s => s.force)),
    idxmax (df.rows.map (fun s => s.force)), ic,
    process_force_data_ok df ht hf, hia, hib, hic,
    computePoints_A df.rows, computePoints_B df.rows,
    by rw [computePoints_C, hCeq]⟩

/-- Witness for C1 on a concrete series: with `window_size = 1` the first
candidate (index 1) already has a flat window, so it is returned. -/
theorem C1_first_stable_candidate_witness :
    find_balance_point [⟨0, 0⟩, ⟨1, 0⟩, ⟨2, 0⟩, ⟨3, 0⟩] 0 1 1
      = ([⟨0, 0⟩, ⟨1, 0⟩, ⟨2, 0⟩, ⟨3, 0⟩] : List Sample).getD 1 ⟨0, 0⟩ :=
  C1_first_stable_candidate [⟨0, 0⟩, ⟨1, 0⟩, ⟨2, 0⟩, ⟨3, 0⟩] 0 1 1 1
    (by norm_num) (by norm_num) (by norm_num)
    (by norm_num [windowForces, sampleStdLt])
    (by intro c' h1 h2; exact absurd h2 (by omega))

/-- Witness for C2 on a concrete three-sample series. -/
theorem C2_extrema_first_occurrence_witness :
    ∃ pts ia ib,
      process_force_data ⟨["time", "force"], [⟨0, 5⟩, ⟨1, 3⟩, ⟨2, 7⟩]⟩
        = ([], some pts) ∧
      ia < ([⟨0, 5⟩, ⟨1, 3⟩, ⟨2, 7⟩] : List Sample).length ∧
      ib < ([⟨0, 5⟩, ⟨1, 3⟩, ⟨2, 7⟩] : List Sample).length ∧
      pts.A = ([⟨0, 5⟩, ⟨1, 3⟩, ⟨2, 7⟩] : List Sample).getD ia ⟨0, 0⟩ ∧
      pts.B = ([⟨0, 5⟩, ⟨1, 3⟩, ⟨2, 7⟩] : List Sample).getD ib ⟨0, 0⟩ ∧
      (∀ j, j < ([⟨0, 5⟩, ⟨1, 3⟩, ⟨2, 7⟩] : List Sample).length →
        pts.A.force ≤ (([⟨0, 5⟩, ⟨1, 3⟩, ⟨2, 7⟩] : List Sample).getD j ⟨0, 0⟩).force ∧
          (([⟨0, 5⟩, ⟨1, 3⟩, ⟨2, 7⟩] : List Sample).getD j ⟨0, 0⟩).force ≤ pts.B.force) ∧
      (∀ j, j < ia →
        pts.A.force < (([⟨0, 5⟩, ⟨1, 3⟩, ⟨2, 7⟩] : List Sample).getD j ⟨0, 0⟩).force) ∧
      (∀ j, j < ib →
        (([⟨0, 5⟩, ⟨1, 3⟩, ⟨2, 7⟩] : List Sample).getD j ⟨0, 0⟩).force < pts.B.force) :=
  C2_extrema_first_occurrence ⟨["time", "force"], [⟨0, 5⟩, ⟨1, 3⟩, ⟨2, 7⟩]⟩
    (by decide) (by decide) (by simp)

/-- Witness for C3 on a concrete three-sample series: with the default
`window_size = 30` the post-B sub-series is too short, so the last sample is
returned. -/
theorem C3_fallback_last_sample_witness :
    find_balance_point [⟨0, 1⟩, ⟨1, 9⟩, ⟨2, 4⟩] 1 30 1
      = ([⟨0, 1⟩, ⟨1, 9⟩, ⟨2, 4⟩] : List Sample).getD 2 ⟨0, 0⟩ :=
  C3_fallback_last_sample [⟨0, 1⟩, ⟨1, 9⟩, ⟨2, 4⟩] 1 30 1
    (by simp) (by norm_num) (Or.inl (by norm_num))

/-- Witness for C4 on a frame missing both canonical columns. -/
theorem C4_missing_columns_witness :
    (process_force_data ⟨["x"], []⟩).2 = none ∧
      ((["x"] : List String).contains "time" = false →
        Warning.missingTime ∈ (process_force_data ⟨["x"], []⟩).1) ∧
      ((["x"] : List String).contains "force" = false →
        Warning.missingForce ∈ (process_force_data ⟨["x"], []⟩).1) :=
  C4_missing_columns ⟨["x"], []⟩ (Or.inl (by decide))

/-- Witness for C5 on a concrete three-sample series. -/
theorem C5_rfd_witness :
    ∃ pts,
      process_force_data ⟨["time", "force"], [⟨0, 5⟩, ⟨1, 3⟩, ⟨2, 7⟩]⟩
        = ([], some pts) ∧
      (pts.B.time ≠ pts.A.time →
        pts.RFD = (pts.B.force - pts.A.force) / (pts.B.time - pts.A.time)) ∧
      (pts.B.time = pts.A.time → pts.RFD = 0) :=
  C5_rfd ⟨["time", "force"], [⟨0, 5⟩, ⟨1, 3⟩, ⟨2, 7⟩]⟩
    (by decide) (by decide) (by simp)

/-- Witness for C6 on a concrete two-sample series. -/
theorem C6_recovery_time_nonneg_witness :
    ∃ pts ib ic,
      process_force_data ⟨["time", "force"], [⟨0, 1⟩, ⟨1, 2⟩]⟩
        = ([], some pts) ∧
      ib < ([⟨0, 1⟩, ⟨1, 2⟩] : List Sample).length ∧
      ic < ([⟨0, 1⟩, ⟨1, 2⟩] : List Sample).length ∧ ib ≤ ic ∧
      pts.B = ([⟨0, 1⟩, ⟨1, 2⟩] : List Sample).getD ib ⟨0, 0⟩ ∧
      pts.C = ([⟨0, 1⟩, ⟨1, 2⟩] : List Sample).getD ic ⟨0, 0⟩ ∧
      (List.Pairwise (fun a b => a.time ≤ b.time)
          ([⟨0, 1⟩, ⟨1, 2⟩] : List Sample) →
        0 ≤ pts.recovery_time) :=
  C6_recovery_time_nonneg ⟨["time", "force"], [⟨0, 1⟩, ⟨1, 2⟩]⟩
    (by decide) (by decide) (by simp)

/-- Witness for C7 (amended) at the first candidate of a concrete series. -/
theorem C7_amended_window_not_before_B_witness :
    0 ≤ (0 + 1) - 1 ∧ ((1 : Nat) = 1 → (0 + 1) - 1 = 0) ∧
      windowForces [⟨0, 0⟩, ⟨1, 0⟩, ⟨2, 0⟩, ⟨3, 0⟩] ((0 + 1) - 1) ((0 + 1) + 1)
        = windowForces (([⟨0, 0⟩, ⟨1, 0⟩, ⟨2, 0⟩, ⟨3, 0⟩] : List Sample).drop 0)
            (1 - 1) (1 + 1) :=
  C7_amended_window_not_before_B [⟨0, 0⟩, ⟨1, 0⟩, ⟨2, 0⟩, ⟨3, 0⟩] 0 1 1
    (by norm_num) (by norm_num)

/-- Witness for C8 at a concrete frame. -/
theorem C8_deterministic_witness :
    process_force_data ⟨["time", "force"], [⟨0, 1⟩, ⟨1, 2⟩]⟩
      = process_force_data ⟨["time", "force"], [⟨0, 1⟩, ⟨1, 2⟩]⟩ :=
  C8_deterministic ⟨["time", "force"], [⟨0, 1⟩, ⟨1, 2⟩]⟩
    ⟨["time", "force"], [⟨0, 1⟩, ⟨1, 2⟩]⟩ rfl

/-- Witness for C9 at the first candidate of a concrete series. -/
theorem C9_window_within_bounds_witness :
    0 ≤ (0 + 1) - 1 ∧
      (0 + 1) + 1 < ([⟨0, 0⟩, ⟨1, 0⟩, ⟨2, 0⟩, ⟨3, 0⟩] : List Sample).length ∧
      (windowForces [⟨0, 0⟩, ⟨1, 0⟩, ⟨2, 0⟩, ⟨3, 0⟩] ((0 + 1) - 1)
          ((0 + 1) + 1)).length = 2 * 1 + 1 :=
  C9_window_within_bounds [⟨0, 0⟩, ⟨1, 0⟩, ⟨2, 0⟩, ⟨3, 0⟩] 0 1 1
    (by norm_num) (by norm_num)

/-- Witness for C10 on a concrete three-sample series. -/
theorem C10_points_are_samples_witness :
    ∃ pts ia ib ic,
      process_force_data ⟨["time", "force"], [⟨0, 5⟩, ⟨1, 3⟩, ⟨2, 7⟩]⟩
        = ([], some pts) ∧
      ia < ([⟨0, 5⟩, ⟨1, 3⟩, ⟨2, 7⟩] : List Sample).length ∧
      ib < ([⟨0, 5⟩, ⟨1, 3⟩, ⟨2, 7⟩] : List Sample).length ∧
      ic < ([⟨0, 5⟩, ⟨1, 3⟩, ⟨2, 7⟩] : List Sample).length ∧
      pts.A = ([⟨0, 5⟩, ⟨1, 3⟩, ⟨2, 7⟩] : List Sample).getD ia ⟨0, 0⟩ ∧
      pts.B = ([⟨0, 5⟩, ⟨1, 3⟩, ⟨2, 7⟩] : List Sample).getD ib ⟨0, 0⟩ ∧
      pts.C = ([⟨0, 5⟩, ⟨1, 3⟩, ⟨2, 7⟩] : List Sample).getD ic ⟨0, 0⟩ :=
  C10_points_are_samples ⟨["time", "force"], [⟨0, 5⟩, ⟨1, 3⟩, ⟨2, 7⟩]⟩
    (by decide) (by decide) (by simp)
